import Mathlib

/-!
Verification of the config-layered sync & thread-lifecycle engine of
`megathreadmanager.py` (the submanager repository), via a shallow embedding.

Strings are modelled as `List Char`.  Python-specific primitives
(`str.replace`, `str.split`, `str.strip`, `int(...)`, dict overlay
`\x7b**a, **b\x7d`) are embedded as executable Lean functions.  Fallible Python
code (exceptions such as `IndexError`, `ValueError`, `AttributeError`,
`NotImplementedError`) is modelled with `Option`; the distinguished
`False` results of the Python helpers are likewise mapped to `Option.none`
(for `process_endpoint_text` / `process_source_endpoint` /
`process_target_endpoint`) or to dedicated constructors (`SearchResult`).
-/

/-- ASCII whitespace as used by Python `str.split()` / `str.strip()`
(unicode whitespace beyond ASCII is not modelled). -/
def isPySpace (c : Char) : Bool :=
  c = ' ' || c = '\t' || c = '\n' || c = '\x0b' || c = '\x0c' || c = '\r'

/-- Python `str.strip()`: remove leading and trailing whitespace. -/
def pyStrip (s : List Char) : List Char :=
  ((s.dropWhile isPySpace).reverse.dropWhile isPySpace).reverse

/-- Worker for `pySplitWs`; accumulates the current token in reverse. -/
def splitWsGo (acc : List Char) : List Char → List (List Char)
  | [] => if acc = [] then [] else [acc.reverse]
  | c :: rest =>
      if isPySpace c then
        if acc = [] then splitWsGo [] rest else acc.reverse :: splitWsGo [] rest
      else splitWsGo (c :: acc) rest

/-- Python `str.split()` with no argument: split on whitespace runs,
dropping empty tokens. -/
def pySplitWs (s : List Char) : List (List Char) :=
  splitWsGo [] s

/-- Worker for `pySplit`; the `Nat` argument is fuel (always called with
fuel ≥ length of the text, so the `0, s => [s]` arm is never reached for a
non-empty separator). -/
def pySplitGo (sep : List Char) : Nat → List Char → List (List Char)
  | _, [] => [[]]
  | 0, s => [s]
  | fuel + 1, c :: rest =>
      if sep.isPrefixOf (c :: rest) then
        [] :: pySplitGo sep fuel (rest.drop (sep.length - 1))
      else
        match pySplitGo sep fuel rest with
        | [] => [[c]]
        | g :: gs => (c :: g) :: gs

/-- Python `str.split(sep)` for a non-empty literal separator `sep`:
split at each non-overlapping occurrence, left to right. -/
def pySplit (sep s : List Char) : List (List Char) :=
  pySplitGo sep s.length s

/-- Worker for `pyReplace`; the `Nat` argument is fuel (always called with
fuel ≥ length of the text).  At each position: if `old` is a prefix, emit
`new` and skip `old.length` characters, else copy one character. -/
def replaceGo (old new : List Char) : Nat → List Char → List Char
  | _, [] => []
  | 0, s => s
  | fuel + 1, c :: rest =>
      if old.isPrefixOf (c :: rest) then
        new ++ replaceGo old new fuel (rest.drop (old.length - 1))
      else
        c :: replaceGo old new fuel rest

/-- Python `text.replace(old, new)`: replace EVERY non-overlapping
occurrence of `old`, scanning left to right.  For an empty `old`, Python
inserts `new` before every character and at the end. -/
def pyReplace (old new s : List Char) : List Char :=
  if old = [] then new ++ s.flatMap (fun c => c :: new)
  else replaceGo old new s.length s

/-- `replace_patterns` (megathreadmanager.py:222): apply each
`(old, new)` pair in mapping order, each replacement visible to later
entries. -/
def replace_patterns (text : List Char) (patterns : List (List Char × List Char)) :
    List Char :=
  patterns.foldl (fun t p => pyReplace p.1 p.2 t) text

/-- `pat` occurs in `s` starting at index `j`. -/
def occursAtB (s pat : List Char) (j : Nat) : Bool :=
  pat.isPrefixOf (s.drop j)

/-- All start positions (in increasing order) at which `pat` occurs in `s`. -/
def occPositions (s pat : List Char) : List Nat :=
  (List.range (s.length + 1)).filter (occursAtB s pat)

/-- Index of the leftmost occurrence of `pat` in `s`. -/
def firstOcc (s pat : List Char) : Option Nat :=
  (occPositions s pat).head?

/-- Index of the rightmost occurrence of `pat` in `s` at position ≥ `i`. -/
def lastOccFrom (s pat : List Char) (i : Nat) : Option Nat :=
  ((occPositions s pat).filter (fun j => decide (i ≤ j))).getLast?

/-- `startend_to_pattern_md` marker text (megathreadmanager.py:237):
the marker for text `p` is the invisible Markdown link-reference
`[](/# p)`. -/
def mdWrap (p : List Char) : List Char :=
  ("[](/# ".data) ++ p ++ (")".data)

/-- Semantics of `re.search` on the pattern produced by
`startend_to_pattern` (megathreadmanager.py:229): the regex
`(?<=S)(\s|\S)*(?=E)` for literal anchors `S`, `E` matches from the end of
the leftmost occurrence of `S`, greedily up to the start of the rightmost
occurrence of `E` at or after that point; `none` models "no match". -/
def md_search (source_text S E : List Char) : Option (List Char) :=
  match firstOcc source_text S with
  | none => none
  | some o =>
      match lastOccFrom source_text E (o + S.length) with
      | none => none
      | some j => some ((source_text.drop (o + S.length)).take (j - (o + S.length)))

/-- The Python `pattern` config value: the literal `False`, the literal
`None`, or a string. -/
inductive PatternVal where
  | falseV
  | noneV
  | strV (s : List Char)
deriving DecidableEq

/-- Result of `search_startend` (megathreadmanager.py:244): Python
returns the literal `False` when matching is disabled, `None` when the
regex finds no match, or a match object (modelled by its matched text). -/
inductive SearchResult where
  | disabled
  | noMatch
  | found (matched : List Char)
deriving DecidableEq

/-- `search_startend` (megathreadmanager.py:244): disabled when `pattern`
is the literal `False` or `None`, or when `pattern`, `start` and `end` are
all falsy; otherwise match between the `[](/# pattern+start)` and
`[](/# pattern+end)` markers. -/
def search_startend (source_text : List Char) (pattern : PatternVal)
    (start end_ : List Char) : SearchResult :=
  match pattern with
  | .falseV => .disabled
  | .noneV => .disabled
  | .strV p =>
      if p = [] ∧ start = [] ∧ end_ = [] then .disabled
      else
        match md_search source_text (mdWrap (p ++ start)) (mdWrap (p ++ end_)) with
        | none => .noMatch
        | some t => .found t

/-- `EndpointType` (megathreadmanager.py:57). -/
inductive EndpointType where
  | MENU
  | THREAD
  | WIDGET
  | WIKI_PAGE
deriving DecidableEq

/-- A fully-resolved sync endpoint configuration
(cf. `DEFAULT_SYNC_ENDPOINT`, megathreadmanager.py:90).  `menu_split` and
`menu_subsplit` model the `menu_config` overrides of `parse_menu`'s
`split`/`subsplit` keyword arguments (the regex keyword arguments of
`parse_menu` are fixed at their defaults in this embedding). -/
structure EndpointConfig where
  description : List Char
  enabled : Bool
  endpoint_name : List Char
  endpoint_type : EndpointType
  menu_split : List Char
  menu_subsplit : List Char
  pattern : PatternVal
  pattern_end : List Char
  pattern_start : List Char
  replace_patterns : List (List Char × List Char)
deriving DecidableEq

/-- `DEFAULT_SYNC_ENDPOINT` (megathreadmanager.py:90). -/
def DEFAULT_SYNC_ENDPOINT : EndpointConfig where
  description := []
  enabled := true
  endpoint_name := []
  endpoint_type := .WIKI_PAGE
  menu_split := ("\n\n".data)
  menu_subsplit := ("\n".data)
  pattern := .falseV
  pattern_end := (" End".data)
  pattern_start := (" Start".data)
  replace_patterns := []

/-- A partial endpooint configuration: a plain Python dict holding only
some of the endpoint keys, to be overlaid on defaults
(`\x7b**defaults, **config\x7d`). -/
structure PartialEndpointConfig where
  description : Option (List Char)
  enabled : Option Bool
  endpoint_name : Option (List Char)
  endpoint_type : Option EndpointType
  menu_split : Option (List Char)
  menu_subsplit : Option (List Char)
  pattern : Option PatternVal
  pattern_end : Option (List Char)
  pattern_start : Option (List Char)
  replace_patterns : Option (List (List Char × List Char))
deriving DecidableEq

/-- The dict with none of the endpoint keys set. -/
def emptyPartial : PartialEndpointConfig where
  description := none
  enabled := none
  endpoint_name := none
  endpoint_type := none
  menu_split := none
  menu_subsplit := none
  pattern := none
  pattern_end := none
  pattern_start := none
  replace_patterns := none

/-- Python dict overlay `\x7b**base, **p\x7d` on endpoint configurations:
keys present in `p` win. -/
def overlay (base : EndpointConfig) (p : PartialEndpointConfig) : EndpointConfig where
  description := p.description.getD base.description
  enabled := p.enabled.getD base.enabled
  endpoint_name := p.endpoint_name.getD base.endpoint_name
  endpoint_type := p.endpoint_type.getD base.endpoint_type
  menu_split := p.menu_split.getD base.menu_split
  menu_subsplit := p.menu_subsplit.getD base.menu_subsplit
  pattern := p.pattern.getD base.pattern
  pattern_end := p.pattern_end.getD base.pattern_end
  pattern_start := p.pattern_start.getD base.pattern_start
  replace_patterns := p.replace_patterns.getD base.replace_patterns

/-- `process_endpoint_text` (megathreadmanager.py:866).  `none` models the
Python `False` return.  In replacement mode the Python code runs
`content.replace(output_text, replace_text)`, i.e. replaces EVERY
occurrence of the extracted region. -/
def process_endpoint_text (content : List Char) (config : EndpointConfig)
    (replace_text : Option (List Char)) : Option (List Char) :=
  match search_startend content config.pattern config.pattern_start config.pattern_end with
  | .found t =>
      match replace_text with
      | none => some t
      | some r => some (pyReplace t r content)
  | .noMatch => none
  | .disabled =>
      match replace_text with
      | none => some content
      | some r => some r

/-- `split_and_clean_text` (megathreadmanager.py:260): strip, split on the
literal separator (or keep whole if the separator is falsy), strip each
section and drop the empty ones. -/
def split_and_clean_text (source_text split : List Char) : List (List Char) :=
  let s := pyStrip source_text
  let sections := if split = [] then [s] else pySplit split s
  (sections.map pyStrip).filter (fun x => decide (x ≠ []))

/-- Leftmost match of the default `pattern_title` regex
`\[([^\n\]]*)\]\(` of `parse_menu` at the START of `s` (the capture
group): a `[`, then characters other than `]` and newline, then `](`. -/
def tryTitle : List Char → Option (List Char)
  | '[' :: rest =>
      let keep : Char → Bool := fun c => !(c = ']' || c = '\n')
      match rest.dropWhile keep with
      | ']' :: '(' :: _ => some (rest.takeWhile keep)
      | _ => none
  | _ => none

/-- `extract_text` (megathreadmanager.py:271) specialised to the default
`pattern_title` / `pattern_subtitle` regex of `parse_menu`: leftmost
match anywhere in `s`, `none` for the Python `False` result. -/
def extract_title : List Char → Option (List Char)
  | [] => none
  | c :: rest =>
      match tryTitle (c :: rest) with
      | some r => some r
      | none => extract_title rest

/-- Leftmost match of the default `pattern_url` regex
`\]\(([^\s\)]*)[\s\)]` of `parse_menu` at the START of `s`: `](`, then
characters other than whitespace and `)`, then one whitespace-or-`)`
character. -/
def tryUrl : List Char → Option (List Char)
  | ']' :: '(' :: rest =>
      let keep : Char → Bool := fun c => !(isPySpace c || c = ')')
      match rest.dropWhile keep with
      | _ :: _ => some (rest.takeWhile keep)
      | [] => none
  | _ => none

/-- `extract_text` specialised to the default `pattern_url` regex of
`parse_menu`. -/
def extract_url : List Char → Option (List Char)
  | [] => none
  | c :: rest =>
      match tryUrl (c :: rest) with
      | some r => some r
      | none => extract_url rest

/-- One child entry of a structured-menu section. -/
structure MenuChild where
  text : List Char
  url : List Char
deriving DecidableEq

/-- One structured-menu section: a title plus either a direct link or a
list of children (`SectionData`, megathreadmanager.py:71). -/
structure MenuSection where
  text : List Char
  url : Option (List Char)
  children : Option (List MenuChild)
deriving DecidableEq

/-- `MenuData` (megathreadmanager.py:72). -/
def MenuData := List MenuSection
deriving DecidableEq

/-- `parse_menu` (megathreadmanager.py:821) with the regex keyword
arguments fixed at their defaults; `split`/`subsplit` remain
configurable (via `menu_config`). -/
def parse_menu (split subsplit source_text : List Char) : MenuData :=
  let text := pyReplace ("\r\n".data) ("\n".data) source_text
  let menu_sections := split_and_clean_text text split
  menu_sections.filterMap (fun menu_section =>
    match split_and_clean_text menu_section subsplit with
    | [] => none
    | first :: rest =>
        match extract_title first with
        | none => none
        | some title_text =>
            match rest with
            | [] =>
                match extract_url first with
                | none => none
                | some url_text =>
                    some { text := title_text, url := some url_text, children := none }
            | _ :: _ =>
                some { text := title_text, url := none,
                       children := some (rest.filterMap (fun menu_child =>
                         match extract_title menu_child, extract_url menu_child with
                         | some t, some u => some { text := t, url := u }
                         | _, _ => none)) })

/-- Endpoint content: a string, or the structured menu data of a menu
widget. -/
inductive Content where
  | text (s : List Char)
  | menu (m : MenuData)
deriving DecidableEq

/-- A source endpoint as observed by the engine: its reported revision
date (`none` models the `NotImplementedError` of menu/widget endpoints)
and its current content. -/
structure SourceObj where
  revision_date : Option Int
  content : Content
deriving DecidableEq

/-- The text-processing half of `process_source_endpoint`
(megathreadmanager.py:908): extract the configured region and apply the
source-side `replace_patterns`; structured menu content passes through
unchanged. -/
def process_source_content (source_config : EndpointConfig) : Content → Option Content
  | .text s =>
      match process_endpoint_text s source_config none with
      | none => none
      | some t => some (.text (replace_patterns t source_config.replace_patterns))
  | .menu m => some (.menu m)

/-- `process_source_endpoint` (megathreadmanager.py:889) as a pure state
transformer: takes the stored `source_timestamp` watermark, returns the
processed content (`none` = the Python `False`) and the new watermark. -/
def process_source_endpoint (source_config : EndpointConfig) (source_obj : SourceObj)
    (source_timestamp : Int) : Option Content × Int :=
  match source_obj.revision_date with
  | some ts =>
      if ts > source_timestamp then
        (process_source_content source_config source_obj.content, ts)
      else (none, source_timestamp)
  | none => (process_source_content source_config source_obj.content, source_timestamp)

/-- `process_target_endpoint` (megathreadmanager.py:923).  The
`isinstance(target_obj, MenuSyncEndpoint)` test is determined by the
target's resolved `endpoint_type` (the endpoint object is created from it
by `create_sync_endpoint_from_config`). -/
def process_target_endpoint (target_config : EndpointConfig) (target_content : Content)
    (source_content : Content) : Option Content :=
  let sc : Content :=
    match source_content with
    | .text s => .text (replace_patterns s target_config.replace_patterns)
    | .menu m => .menu m
  if target_config.endpoint_type = .MENU then
    match sc with
    | .text s =>
        some (.menu (parse_menu target_config.menu_split target_config.menu_subsplit s))
    | .menu _ => some target_content
  else
    match sc, target_content with
    | .text s, .text t => (process_endpoint_text t target_config (some s)).map .text
    | _, _ => some target_content

/-- A sync pair as consumed by `sync_one`: the `enabled` flag, the
`defaults` overlay, the partial source config, and the targets (each a
partial config together with the target endpoint's current content). -/
structure SyncPairData where
  enabled : Bool
  defaults : PartialEndpointConfig
  source : PartialEndpointConfig
  targets : List (PartialEndpointConfig × Content)
deriving DecidableEq

/-- `defaults = \x7b**DEFAULT_SYNC_ENDPOINT, **sync_pair["defaults"]\x7d`
(megathreadmanager.py:957). -/
def resolved_defaults (sync_pair : SyncPairData) : EndpointConfig :=
  overlay DEFAULT_SYNC_ENDPOINT sync_pair.defaults

/-- `source_config = \x7b**defaults, **sync_pair["source"]\x7d`
(megathreadmanager.py:958). -/
def resolved_source_config (sync_pair : SyncPairData) : EndpointConfig :=
  overlay (resolved_defaults sync_pair) sync_pair.source

/-- The target loop of `sync_one` (megathreadmanager.py:973): the list of
contents written (`target_obj.edit` calls), one per enabled,
non-skipped target, in declaration order. -/
def sync_targets (defaults : EndpointConfig)
    (targets : List (PartialEndpointConfig × Content)) (source_content : Content) :
    List Content :=
  targets.filterMap (fun t =>
    let target_config := overlay defaults t.1
    if target_config.enabled then process_target_endpoint target_config t.2 source_content
    else none)

/-- Outcome of `sync_one`: the raised `ConfigError`, or the returned
value (`None`/`False`/`True`) together with the new watermark and the
list of target writes. -/
inductive SyncOutcome where
  | raisedConfigError
  | finished (result : Option Bool) (new_timestamp : Int) (writes : List Content)
deriving DecidableEq

/-- `sync_one` (megathreadmanager.py:950) as a pure function of the pair,
the source endpoint's observed state, and the stored watermark. -/
def sync_one (sync_pair : SyncPairData) (source_obj : SourceObj)
    (source_timestamp : Int) : SyncOutcome :=
  let source_config := resolved_source_config sync_pair
  if !(sync_pair.enabled && source_config.enabled) then
    .finished none source_timestamp []
  else if sync_pair.targets = [] then .raisedConfigError
  else
    match process_source_endpoint source_config source_obj source_timestamp with
    | (none, ts) => .finished (some false) ts []
    | (some sc, ts) =>
        .finished (some true) ts (sync_targets (resolved_defaults sync_pair) sync_pair.targets sc)

/-- The post-staleness-gate part of `sync_one` for claim statements: the
normal extraction and fan-out pipeline run at watermark value `ts`. -/
def pipeline_outcome (sync_pair : SyncPairData) (source_obj : SourceObj) (ts : Int) :
    SyncOutcome :=
  match process_source_content (resolved_source_config sync_pair) source_obj.content with
  | none => .finished (some false) ts []
  | some sc =>
      .finished (some true) ts (sync_targets (resolved_defaults sync_pair) sync_pair.targets sc)

/-- Python `int(token)` on a whitespace-free token: optional sign then
decimal digits (`none` models `ValueError`; underscore digit grouping is
not modelled). -/
def digitsVal : List Char → Option Nat
  | [] => none
  | [c] => if c.isDigit then some (c.toNat - '0'.toNat) else none
  | c :: rest =>
      if c.isDigit then
        (digitsVal rest).map (fun n => (c.toNat - '0'.toNat) * 10 ^ rest.length + n)
      else none

/-- Python `int(...)` on a `str.split()` token. -/
def pyInt : List Char → Option Int
  | '+' :: rest => (digitsVal rest).map Int.ofNat
  | '-' :: rest => (digitsVal rest).map (fun n => -(n : Int))
  | s => (digitsVal s).map Int.ofNat

/-- The unit normalisation inside `process_raw_interval`
(megathreadmanager.py:288): `rstrip("s")` then drop a trailing `"ly"`
(Python `interval_unit[-2:] == "ly"`). -/
def normalize_unit (u : List Char) : List Char :=
  let u1 := (u.reverse.dropWhile (fun c => c = 's')).reverse
  if u1.drop (u1.length - 2) = ("ly".data) then u1.take (u1.length - 2) else u1

/-- `process_raw_interval` (megathreadmanager.py:280).  `none` models the
uncaught `IndexError` (no tokens) or `ValueError` (non-integer first
token).  The `not interval_n` truthiness check treats both `None` and `0`
as falsy. -/
def process_raw_interval (raw_interval : List Char) : Option (List Char × Option Int) :=
  let interval_split := pySplitWs raw_interval
  match interval_split.getLast? with
  | none => none
  | some unit0 =>
      match
        (if interval_split.length = 1 then some none
         else
           match interval_split with
           | [] => none
           | t0 :: _ => (pyInt t0).map some) with
      | none => none
      | some interval_n =>
          let interval_unit := normalize_unit unit0
          let n' :=
            if interval_unit = ("week".data) ∧ (interval_n = none ∨ interval_n = some 0)
            then some 1 else interval_n
          some (interval_unit, n')

/-- A timezone-free civil datetime (the engine only ever compares UTC
datetimes and reads their calendar fields). -/
structure DateTime where
  year : Int
  month : Int
  day : Int
  hour : Int
  minute : Int
  second : Int
deriving DecidableEq

/-- Days since 1970-01-01 of a civil date (Gregorian, proleptic). -/
def daysFromCivil (y m d : Int) : Int :=
  let y1 := if m ≤ 2 then y - 1 else y
  let era := (if 0 ≤ y1 then y1 else y1 - 399).tdiv 400
  let yoe := y1 - era * 400
  let mp := (m + 9).emod 12
  let doy := (153 * mp + 2).tdiv 5 + d - 1
  let doe := yoe * 365 + yoe.tdiv 4 - yoe.tdiv 100 + doy
  era * 146097 + doe - 719468

/-- Civil date from days since 1970-01-01. -/
def civilFromDays (z : Int) : Int × Int × Int :=
  let z1 := z + 719468
  let era := (if 0 ≤ z1 then z1 else z1 - 146096).tdiv 146097
  let doe := z1 - era * 146097
  let yoe := (doe - doe.tdiv 1460 + doe.tdiv 36524 - doe.tdiv 146096).tdiv 365
  let y := yoe + era * 400
  let doy := doe - (365 * yoe + yoe.tdiv 4 - yoe.tdiv 100)
  let mp := (5 * doy + 2).tdiv 153
  let d := doy - (153 * mp + 2).tdiv 5 + 1
  let m := mp + (if mp < 10 then 3 else -9)
  (if m ≤ 2 then y + 1 else y, m, d)

/-- Seconds since the epoch of a `DateTime` (total order on datetimes). -/
def toSecs (dt : DateTime) : Int :=
  daysFromCivil dt.year dt.month dt.day * 86400
    + dt.hour * 3600 + dt.minute * 60 + dt.second

/-- `DateTime` from seconds since the epoch. -/
def fromSecs (t : Int) : DateTime :=
  let days := t.ediv 86400
  let rem := t.emod 86400
  let c := civilFromDays days
  { year := c.1, month := c.2.1, day := c.2.2,
    hour := rem.ediv 3600, minute := (rem.emod 3600).ediv 60, second := rem.emod 60 }

/-- Gregorian leap year. -/
def isLeapYear (y : Int) : Bool :=
  (y.emod 4 == 0 && !(y.emod 100 == 0)) || y.emod 400 == 0

/-- Days in a month. -/
def daysInMonth (y m : Int) : Int :=
  if m = 2 then (if isLeapYear y then 29 else 28)
  else if m = 4 ∨ m = 6 ∨ m = 9 ∨ m = 11 then 30 else 31

/-- Shift a datetime by an absolute number of seconds. -/
def addSeconds (dt : DateTime) (n : Int) : DateTime :=
  fromSecs (toSecs dt + n)

/-- `dateutil.relativedelta` month arithmetic: same day `n` calendar
months later, the day clamped to the target month's length. -/
def addMonths (dt : DateTime) (n : Int) : DateTime :=
  let tot := dt.year * 12 + (dt.month - 1) + n
  let y := tot.fdiv 12
  let m := tot.emod 12 + 1
  { dt with year := y, month := m, day := min dt.day (daysInMonth y m) }

/-- `last_post_timestamp + relativedelta(**\x7bf"\x7binterval_unit\x7ds": interval_n\x7d)`
(megathreadmanager.py:760): calendar-aware for years/months, elapsed
duration for weeks/days/hours/minutes/seconds; `none` models the
`TypeError` raised by `relativedelta` on an unknown keyword. -/
def addInterval (dt : DateTime) (unit : List Char) (n : Int) : Option DateTime :=
  if unit = ("year".data) then some (addMonths dt (12 * n))
  else if unit = ("month".data) then some (addMonths dt n)
  else if unit = ("week".data) then some (addSeconds dt (n * 7 * 86400))
  else if unit = ("day".data) then some (addSeconds dt (n * 86400))
  else if unit = ("hour".data) then some (addSeconds dt (n * 3600))
  else if unit = ("minute".data) then some (addSeconds dt (n * 60))
  else if unit = ("second".data) then some (addSeconds dt n)
  else none

/-- `getattr(timestamp, interval_unit)` (megathreadmanager.py:757) on a
datetime: `none` models the `AttributeError` for units that are not
datetime attributes (such as the bare `"week"`). -/
def datetime_field (dt : DateTime) (attr : List Char) : Option Int :=
  if attr = ("year".data) then some dt.year
  else if attr = ("month".data) then some dt.month
  else if attr = ("day".data) then some dt.day
  else if attr = ("hour".data) then some dt.hour
  else if attr = ("minute".data) then some dt.minute
  else if attr = ("second".data) then some dt.second
  else none

/-- The rotate-vs-resync decision of `manage_thread`
(megathreadmanager.py:742-770).  Outer `none` models an uncaught
exception; `some none` the disabled early return; `some (some b)` the
computed `should_post_new_thread`. -/
def manage_thread_decision (thread_enabled : Bool) (new_thread_interval : List Char)
    (thread_id : List Char) (last_post_timestamp current_datetime : DateTime) :
    Option (Option Bool) :=
  if !thread_enabled then some none
  else if new_thread_interval = [] then some (some false)
  else
    match process_raw_interval new_thread_interval with
    | none => none
    | some (interval_unit, interval_n) =>
        if thread_id = [] then some (some true)
        else
          match interval_n with
          | none =>
              match datetime_field last_post_timestamp interval_unit,
                    datetime_field current_datetime interval_unit with
              | some a, some b => some (some (decide (a ≠ b)))
              | _, _ => none
          | some n =>
              match addInterval last_post_timestamp interval_unit n with
              | none => none
              | some t =>
                  some (some (decide (toSecs current_datetime > toSecs t)))

/-- A Dynamic State Record of a megathread (`DYNAMIC_CONFIGS`
megathread defaults, megathreadmanager.py:131). -/
structure DynamicRecord where
  thread_number : Int
  thread_id : List Char
  source_timestamp : Int
deriving DecidableEq

/-- The effect of `create_new_thread` (megathreadmanager.py:633) on the
megathread's Dynamic State Record: first reset `source_timestamp` to 0
and increment `thread_number`; then `process_source_endpoint` may move
the watermark up from 0; finally record the new thread's id.  All Reddit
side effects are external; `new_thread_id` is the id the platform
assigns to the submitted thread. -/
def create_new_thread_dyn (source_config : EndpointConfig) (source_obj : SourceObj)
    (new_thread_id : List Char) (dyn : DynamicRecord) : DynamicRecord :=
  let dyn1 : DynamicRecord :=
    { dyn with source_timestamp := 0, thread_number := dyn.thread_number + 1 }
  let ts := (process_source_endpoint source_config source_obj dyn1.source_timestamp).2
  { dyn1 with source_timestamp := ts, thread_id := new_thread_id }

/-- An untyped config value (the JSON/TOML values of the config
documents). -/
inductive CVal where
  | vInt (n : Int)
  | vStr (s : List Char)
  | vBool (b : Bool)
  | vRec (fields : List (List Char × CVal))

/-- A Python dict keyed by strings, modelled as an association list in
insertion order (Python dicts have unique keys). -/
def Record := List (List Char × CVal)

/-- Python `d.get(k)` / `d[k]`. -/
def dget {α : Type} : List (List Char × α) → List Char → Option α
  | [], _ => none
  | (k1, v1) :: rest, k => if k1 = k then some v1 else dget rest k

/-- Python `d[k] = v`: replace the value in place at an existing key
(keeping its position), else append the new key. -/
def dset {α : Type} : List (List Char × α) → List Char → α → List (List Char × α)
  | [], k, v => [(k, v)]
  | (k1, v1) :: rest, k, v =>
      if k1 = k then (k, v) :: rest else (k1, v1) :: dset rest k v

/-- Python dict overlay `\x7b**a, **b\x7d`: keys of `a` in order with `b`'s
values winning on collision, then `b`'s new keys in order. -/
def dmerge (a b : Record) : Record :=
  a.map (fun q => (q.1, (dget b q.1).getD q.2)) ++ b.filter (fun q => (dget a q.1).isNone)

/-- The `static_config_path` traversal of `render_dynamic_config`
(megathreadmanager.py:579-581): successive `.get(path_element, \x7b\x7d)`;
`none` models the `AttributeError` of `.get` on a non-dict value. -/
def pathGet : List (List Char × CVal) → List (List Char) → Option (List (List Char × CVal))
  | fs, [] => some fs
  | fs, k :: rest =>
      match dget fs k with
      | none => pathGet [] rest
      | some (.vRec fs1) => pathGet fs1 rest
      | some _ => none

/-- `static_config_item.get("initial", \x7b\x7d)` (megathreadmanager.py:584);
`none` models the exceptions raised when the item or its `initial` value
is not a dict. -/
def getInitial (item : CVal) : Option Record :=
  match item with
  | .vRec fs =>
      match dget fs ("initial".data) with
      | none => some []
      | some (.vRec g) => some g
      | some _ => none
  | _ => none

/-- A per-id dynamic-state section of the dynamic config document. -/
def DynSection := List (List Char × Record)

/-- The whole dynamic config document. -/
def DynDoc := List (List Char × DynSection)

/-- The inner loop of `render_dynamic_config` (megathreadmanager.py:583):
for each item id of the static config section, overlay the schema
defaults, the item's `initial` block and the pre-existing dynamic record
(later layers winning), and store the result under the id. -/
def fillSection (defaults : Record) :
    List (List Char × CVal) → DynSection → Option DynSection
  | [], sec => some sec
  | (config_id, item) :: rest, sec =>
      match getInitial item with
      | none => none
      | some initial_dynamic_config =>
          fillSection defaults rest
            (dset sec config_id
              (dmerge (dmerge defaults initial_dynamic_config)
                ((dget sec config_id).getD [])))

/-- The megathread `static_config_path` of `DYNAMIC_CONFIGS`
(megathreadmanager.py:130). -/
def megathreadPath : List (List Char) :=
  [("megathread".data), ("megathreads".data)]

/-- The megathread schema defaults of `DYNAMIC_CONFIGS`
(megathreadmanager.py:131). -/
def megathreadDynDefaults : Record :=
  [(("thread_number".data), .vInt 0),
   (("thread_id".data), .vStr []),
   (("source_timestamp".data), .vInt 0)]

/-- The sync `static_config_path` of `DYNAMIC_CONFIGS`
(megathreadmanager.py:138). -/
def syncPath : List (List Char) :=
  [("sync".data), ("pairs".data)]

/-- The sync schema defaults of `DYNAMIC_CONFIGS`
(megathreadmanager.py:139). -/
def syncDynDefaults : Record :=
  [(("source_timestamp".data), .vInt 0)]

/-- `DYNAMIC_CONFIGS` (megathreadmanager.py:128): for each dynamic
section, the path into the static config and the schema defaults. -/
def DYNAMIC_CONFIGS : List (List Char × (List (List Char) × Record)) :=
  [(("megathread".data), (megathreadPath, megathreadDynDefaults)),
   (("sync".data), (syncPath, syncDynDefaults))]

/-- The outer loop of `render_dynamic_config` (megathreadmanager.py:576)
over the `DYNAMIC_CONFIGS` entries. -/
def renderGo (static_config : List (List Char × CVal)) :
    List (List Char × (List (List Char) × Record)) → DynDoc → Option DynDoc
  | [], dynamic_config => some dynamic_config
  | (key, pd) :: rest, dynamic_config =>
      match pathGet static_config pd.1 with
      | none => none
      | some static_config_items =>
          match fillSection pd.2 static_config_items ((dget dynamic_config key).getD []) with
          | none => none
          | some sec => renderGo static_config rest (dset dynamic_config key sec)

/-- `render_dynamic_config` (megathreadmanager.py:564) on already-loaded
config documents (`none` models an exception on a malformed static
config). -/
def render_dynamic_config (static_config : List (List Char × CVal))
    (dynamic_config : DynDoc) : Option DynDoc :=
  renderGo static_config DYNAMIC_CONFIGS dynamic_config

/-! ### Concrete fixtures used by witnesses and counterexamples -/

/-- A sync endpoint config with logical pattern `"P"` and the default
marker suffixes. -/
def cfgP : EndpointConfig :=
  { DEFAULT_SYNC_ENDPOINT with pattern := .strV ("P".data) }

/-- The start marker `[](/# P Start)`. -/
def sMp : List Char := mdWrap (("P".data) ++ (" Start".data))

/-- The end marker `[](/# P End)`. -/
def eMp : List Char := mdWrap (("P".data) ++ (" End".data))

/-- A sync endpoint config with an empty-string pattern and empty
suffixes (matching disabled). -/
def cfgEmptyPat : EndpointConfig :=
  { DEFAULT_SYNC_ENDPOINT with
      pattern := .strV []
      pattern_start := []
      pattern_end := [] }

/-- A sync pair with one enabled default-config target. -/
def pairW : SyncPairData where
  enabled := true
  defaults := emptyPartial
  source := emptyPartial
  targets := [(emptyPartial, .text [])]

/-- A disabled sync pair with no targets. -/
def pairDisabledW : SyncPairData where
  enabled := false
  defaults := emptyPartial
  source := emptyPartial
  targets := []

/-- An enabled sync pair with no targets. -/
def pairNoTargetsW : SyncPairData where
  enabled := true
  defaults := emptyPartial
  source := emptyPartial
  targets := []

/-- A text source endpoint reporting revision 5. -/
def objW : SourceObj where
  revision_date := some 5
  content := .text ("hi".data)

/-- A structured-menu source endpoint reporting revision 5. -/
def objMenuW : SourceObj where
  revision_date := some 5
  content := .menu [{ text := ("T".data), url := some ("u".data), children := none }]

/-- A concrete megathread dynamic record. -/
def dynW : DynamicRecord where
  thread_number := 3
  thread_id := ("abc".data)
  source_timestamp := 7

/-- A concrete datetime. -/
def dtW : DateTime where
  year := 2021
  month := 6
  day := 15
  hour := 12
  minute := 0
  second := 0

/-- A concrete later datetime. -/
def dtW2 : DateTime where
  year := 2021
  month := 6
  day := 23
  hour := 12
  minute := 0
  second := 0

/-- A concrete static config document: one megathread `"a"` with an
`initial` block, no sync pairs. -/
def staticW : List (List Char × CVal) :=
  [(("megathread".data), .vRec [(("megathreads".data), .vRec
      [(("a".data), .vRec [(("initial".data), .vRec
        [(("thread_number".data), .vInt 5)])])])]),
   (("sync".data), .vRec [(("pairs".data), .vRec [])])]

/-- A concrete prior dynamic config document: a stale record for id
`"gone"` (absent from `staticW`) and a pre-existing record for `"a"`. -/
def dynDocW : DynDoc :=
  [(("megathread".data),
    [(("gone".data), [(("source_timestamp".data), CVal.vInt 9)]),
     (("a".data), [(("source_timestamp".data), CVal.vInt 4)])])]

/-- The static-config item of id `"a"` inside `staticW`. -/
def itemAW : CVal :=
  .vRec [(("initial".data), .vRec [(("thread_number".data), .vInt 5)])]

/-- The rendered dynamic config of `staticW` over `dynDocW`: the stale
`"gone"` record is retained, the `"a"` record is the three-layer
overlay, and an empty `sync` section is created. -/
def outW : DynDoc :=
  [(("megathread".data),
    [(("gone".data), [(("source_timestamp".data), CVal.vInt 9)]),
     (("a".data),
      [(("thread_number".data), CVal.vInt 5),
       (("thread_id".data), CVal.vStr []),
       (("source_timestamp".data), CVal.vInt 4)])]),
   (("sync".data), [])]

/-! ### Occurrence and matcher lemmas -/

theorem occursAtB_cons_succ (c : Char) (s pat : List Char) (j : Nat) :
    occursAtB (c :: s) pat (j + 1) = occursAtB s pat j := by
  simp [occursAtB]

theorem occursAtB_append_shift (a b pat : List Char) (j : Nat) :
    occursAtB (a ++ b) pat (a.length + j) = occursAtB b pat j := by
  unfold occursAtB
  rw [List.drop_append j]

theorem occursAtB_length_le (s pat : List Char) (j : Nat) (hj : j ≤ s.length)
    (h : occursAtB s pat j = true) : j + pat.length ≤ s.length := by
  unfold occursAtB at h
  have h2 : pat <+: s.drop j := List.isPrefixOf_iff_prefix.mp h
  have h3 := h2.length_le
  rw [List.length_drop] at h3
  omega

theorem mem_occPositions (s pat : List Char) (j : Nat) :
    j ∈ occPositions s pat ↔ j ≤ s.length ∧ occursAtB s pat j = true := by
  simp [occPositions, List.mem_filter, Nat.lt_succ_iff, and_comm]

theorem firstOcc_zero (s pat : List Char) (h : pat.isPrefixOf s = true) :
    firstOcc s pat = some 0 := by
  unfold firstOcc occPositions
  rw [List.range_succ_eq_map, List.filter_cons]
  have h0 : occursAtB s pat 0 = true := by simpa [occursAtB] using h
  simp [h0]

theorem filter_range_getLast (p : Nat → Bool) (n m : Nat) (hm : m ≤ n) (hpm : p m = true)
    (hmax : ∀ j, m < j → j ≤ n → p j = false) :
    ((List.range (n + 1)).filter p).getLast? = some m := by
  induction n with
  | zero =>
      have hm0 : m = 0 := by omega
      subst hm0
      simp [List.range_succ, hpm]
  | succ k ih =>
      rw [List.range_succ, List.filter_append]
      by_cases hmk : m = k + 1
      · subst hmk
        simp [hpm]
      · have hm' : m ≤ k := by omega
        have hk : p (k + 1) = false := hmax (k + 1) (by omega) le_rfl
        simp only [List.filter_cons, hk, Bool.false_eq_true, if_false, List.filter_nil,
          List.append_nil]
        exact ih hm' (fun j h1 h2 => hmax j h1 (by omega))

theorem isPrefixOf_append (a b : List Char) : a.isPrefixOf (a ++ b) = true :=
  List.isPrefixOf_iff_prefix.mpr (List.prefix_append a b)

theorem occursAtB_suffix (S A E : List Char) :
    occursAtB (S ++ A ++ E) E (S.length + A.length) = true := by
  unfold occursAtB
  have h1 : S.length + A.length = (S ++ A).length := by simp
  rw [h1, List.drop_left]
  exact List.isPrefixOf_iff_prefix.mpr (List.prefix_refl E)

theorem lastOccFrom_append (S A E : List Char) (i : Nat) (hi : i ≤ S.length + A.length) :
    lastOccFrom (S ++ A ++ E) E i = some (S.length + A.length) := by
  unfold lastOccFrom occPositions
  rw [List.filter_filter]
  apply filter_range_getLast
  · simp only [List.length_append]; omega
  · rw [Bool.and_eq_true]
    exact ⟨decide_eq_true hi, occursAtB_suffix S A E⟩
  · intro j h1 h2
    have hocc : occursAtB (S ++ A ++ E) E j = false := by
      by_contra hne
      rw [Bool.not_eq_false] at hne
      have h3 := occursAtB_length_le (S ++ A ++ E) E j h2 hne
      simp only [List.length_append] at h3
      omega
    show (decide (i ≤ j) && occursAtB (S ++ A ++ E) E j) = false
    rw [hocc, Bool.and_false]

theorem md_search_append (S A E : List Char) :
    md_search (S ++ A ++ E) S E = some A := by
  unfold md_search
  have hpre : S.isPrefixOf (S ++ A ++ E) = true := by
    rw [List.append_assoc]
    exact isPrefixOf_append S (A ++ E)
  rw [firstOcc_zero _ _ hpre]
  dsimp only
  rw [lastOccFrom_append S A E (0 + S.length) (by omega)]
  dsimp only
  have hdrop : (S ++ A ++ E).drop (0 + S.length) = A ++ E := by
    rw [Nat.zero_add, List.append_assoc, List.drop_left]
  rw [hdrop]
  have htake : S.length + A.length - (0 + S.length) = A.length := by omega
  rw [htake, List.take_left]

/-! ### `pyReplace` splice lemmas -/

theorem replaceGo_nil (old new : List Char) (fuel : Nat) :
    replaceGo old new fuel [] = [] := by
  cases fuel <;> rfl

theorem replaceGo_cons (old new : List Char) (fuel : Nat) (c : Char) (rest : List Char) :
    replaceGo old new (fuel + 1) (c :: rest)
      = if old.isPrefixOf (c :: rest) then
          new ++ replaceGo old new fuel (rest.drop (old.length - 1))
        else c :: replaceGo old new fuel rest := rfl

theorem replaceGo_fuel (old new : List Char) :
    ∀ fuel fuel' s, s.length ≤ fuel → s.length ≤ fuel' →
      replaceGo old new fuel s = replaceGo old new fuel' s := by
  intro fuel
  induction fuel with
  | zero =>
      intro fuel' s h _
      have hs : s = [] := by
        cases s with
        | nil => rfl
        | cons c rest => simp at h
      subst hs
      rw [replaceGo_nil, replaceGo_nil]
  | succ k ih =>
      intro fuel' s h h'
      cases s with
      | nil => rw [replaceGo_nil, replaceGo_nil]
      | cons c rest =>
          cases fuel' with
          | zero => simp at h'
          | succ k' =>
              rw [replaceGo_cons, replaceGo_cons]
              by_cases hp : old.isPrefixOf (c :: rest) = true
              · rw [if_pos hp, if_pos hp]
                have hlen := List.length_drop (old.length - 1) rest
                simp only [List.length_cons] at h h'
                rw [ih k' (rest.drop (old.length - 1)) (by omega) (by omega)]
              · rw [Bool.not_eq_true] at hp
                rw [hp, if_neg (by simp), if_neg (by simp)]
                simp only [List.length_cons] at h h'
                rw [ih k' rest (by omega) (by omega)]

theorem replaceGo_skip (old new : List Char) :
    ∀ pre suf fuel, (pre ++ suf).length ≤ fuel →
      (∀ j, j < pre.length → occursAtB (pre ++ suf) old j = false) →
      replaceGo old new fuel (pre ++ suf) = pre ++ replaceGo old new (fuel - pre.length) suf := by
  intro pre
  induction pre with
  | nil => intro suf fuel _ _; simp
  | cons c pre' ih =>
      intro suf fuel h hocc
      cases fuel with
      | zero => simp at h
      | succ k =>
          have h0 : occursAtB ((c :: pre') ++ suf) old 0 = false := hocc 0 (by simp)
          have hp : old.isPrefixOf (c :: (pre' ++ suf)) = false := by
            simpa [occursAtB] using h0
          rw [List.cons_append, replaceGo_cons, hp, if_neg (by simp)]
          rw [ih suf k (by simp only [List.length_append, List.length_cons] at h ⊢; omega)
            (fun j hj => by
              have h2 := hocc (j + 1) (by simp only [List.length_cons]; omega)
              rwa [List.cons_append, occursAtB_cons_succ] at h2)]
          simp only [List.length_cons, List.cons_append, Nat.succ_sub_succ]

theorem replaceGo_hit (old new : List Char) (hne : old ≠ []) :
    ∀ suf fuel, (old ++ suf).length ≤ fuel →
      replaceGo old new fuel (old ++ suf) = new ++ replaceGo old new (fuel - old.length) suf := by
  intro suf fuel h
  match old, hne with
  | o :: orest, _ =>
      cases fuel with
      | zero => simp at h
      | succ k =>
          have hp : (o :: orest).isPrefixOf (o :: (orest ++ suf)) = true := by
            rw [← List.cons_append]
            exact isPrefixOf_append (o :: orest) suf
          rw [List.cons_append, replaceGo_cons, if_pos hp]
          have hd : (orest ++ suf).drop ((o :: orest).length - 1) = suf := by

            simp only [List.length_cons, Nat.add_sub_cancel]
            exact List.drop_left orest suf
          rw [hd]
          congr 1
          apply replaceGo_fuel
          · simp only [List.length_append, List.length_cons] at h; omega
          · simp only [List.length_append, List.length_cons] at h ⊢; omega

theorem replaceGo_clean (old new : List Char) :
    ∀ s fuel, (∀ j, j < s.length → occursAtB s old j = false) →
      replaceGo old new fuel s = s := by
  intro s
  induction s with
  | nil => intro fuel _; exact replaceGo_nil old new fuel
  | cons c rest ih =>
      intro fuel hocc
      cases fuel with
      | zero => rfl
      | succ k =>
          have h0 : occursAtB (c :: rest) old 0 = false := hocc 0 (by simp)
          have hp : old.isPrefixOf (c :: rest) = false := by simpa [occursAtB] using h0
          rw [replaceGo_cons, hp, if_neg (by simp)]
          rw [ih k (fun j hj => by
            have h2 := hocc (j + 1) (by simp only [List.length_cons]; omega)
            rwa [occursAtB_cons_succ] at h2)]

theorem pyReplace_splice_one (old new A rest : List Char) (hne : old ≠ [])
    (hoccA : ∀ j, j < A.length → occursAtB (A ++ old ++ rest) old j = false)
    (hoccR : ∀ j, j < rest.length → occursAtB rest old j = false) :
    pyReplace old new (A ++ old ++ rest) = A ++ new ++ rest := by
  unfold pyReplace
  rw [if_neg hne]
  rw [List.append_assoc]
  rw [replaceGo_skip old new A (old ++ rest) _ (by simp)
    (fun j hj => by rw [← List.append_assoc]; exact hoccA j hj)]
  rw [replaceGo_hit old new hne rest _
    (by simp only [List.length_append]; omega)]
  rw [replaceGo_clean old new rest _ hoccR, List.append_assoc]

theorem pyReplace_splice_two (old new A B C : List Char) (hne : old ≠ [])
    (h1 : ∀ j, j < A.length → occursAtB (A ++ old ++ (B ++ old ++ C)) old j = false)
    (h2 : ∀ j, j < B.length → occursAtB (B ++ old ++ C) old j = false)
    (h3 : ∀ j, j < C.length → occursAtB C old j = false) :
    pyReplace old new (A ++ old ++ (B ++ old ++ C)) = A ++ new ++ (B ++ new ++ C) := by
  unfold pyReplace
  rw [if_neg hne]
  rw [List.append_assoc]
  rw [replaceGo_skip old new A (old ++ (B ++ old ++ C)) _ (by simp)
    (fun j hj => by rw [← List.append_assoc]; exact h1 j hj)]
  rw [replaceGo_hit old new hne (B ++ old ++ C) _
    (by simp only [List.length_append]; omega)]
  rw [List.append_assoc B old C]
  rw [replaceGo_skip old new B (old ++ C) _
    (by simp only [List.length_append]; omega)
    (fun j hj => by rw [← List.append_assoc]; exact h2 j hj)]
  rw [replaceGo_hit old new hne C _
    (by simp only [List.length_append]; omega)]
  rw [replaceGo_clean old new C _ h3]
  simp [List.append_assoc]

/-- Sanity check of the embedding against the documented menu-parse
example: two sections, one a direct link, one titled with one child. -/
theorem parse_menu_example :
    parse_menu ("\n\n".data) ("\n".data) ("[A](http://x)\n\n[B](http://y)\n[C](http://z)".data) =
      [{ text := ("A".data), url := some ("http://x".data), children := none },
       { text := ("B".data), url := none,
         children := some [{ text := ("C".data), url := ("http://z".data) }] }] := by decide

/-! ### Region matcher claims -/

theorem search_startend_shape (p st en A : List Char)
    (hdis : ¬(p = [] ∧ st = [] ∧ en = [])) :
    search_startend (mdWrap (p ++ st) ++ A ++ mdWrap (p ++ en)) (.strV p) st en
      = .found A := by
  simp only [search_startend]
  rw [if_neg hdis, md_search_append]

theorem occPositions_unique_clean (S X E : List Char) (hX : X ≠ [])
    (huniq : occPositions (S ++ X ++ E) X = [S.length]) :
    (∀ j, j < S.length → occursAtB (S ++ X ++ E) X j = false)
    ∧ (∀ j, j < E.length → occursAtB E X j = false) := by
  have hmem : ∀ j, j ∈ occPositions (S ++ X ++ E) X ↔ j = S.length := by
    intro j
    rw [huniq, List.mem_singleton]
  constructor
  · intro j hj
    by_contra hb
    rw [Bool.not_eq_false] at hb
    have hin : j ∈ occPositions (S ++ X ++ E) X := by
      rw [mem_occPositions]
      exact ⟨by simp only [List.length_append]; omega, hb⟩
    rw [hmem] at hin
    omega
  · intro j hj
    by_contra hb
    rw [Bool.not_eq_false] at hb
    have hshift : occursAtB ((S ++ X) ++ E) X ((S ++ X).length + j) = true := by
      rw [occursAtB_append_shift]
      exact hb
    have hin : (S ++ X).length + j ∈ occPositions (S ++ X ++ E) X := by
      rw [mem_occPositions]
      exact ⟨by simp only [List.length_append]; omega, hshift⟩
    rw [hmem] at hin
    simp only [List.length_append] at hin
    have hXlen : 0 < X.length := List.length_pos.mpr hX
    omega

/-- C3 (amended): for text `X` that is non-empty and occurs in the
assembled content only as the delimited region (position exactly after
the start marker), and any `Y`: extraction yields `X`, replacement yields
the content with the region replaced by `Y` and markers intact, and
re-extraction yields exactly `Y`.  (As originally stated — for any `X`/`Y`
not containing the marker literals — the claim is false, see
`c3_counterexample`.) -/
theorem c3_region_roundtrip (p st en X Y : List Char) (cfg : EndpointConfig)
    (hcfg : cfg.pattern = .strV p) (hst : cfg.pattern_start = st)
    (hen : cfg.pattern_end = en)
    (hdis : ¬(p = [] ∧ st = [] ∧ en = []))
    (hX : X ≠ [])
    (huniq : occPositions (mdWrap (p ++ st) ++ X ++ mdWrap (p ++ en)) X
      = [(mdWrap (p ++ st)).length]) :
    process_endpoint_text (mdWrap (p ++ st) ++ X ++ mdWrap (p ++ en)) cfg none = some X
    ∧ process_endpoint_text (mdWrap (p ++ st) ++ X ++ mdWrap (p ++ en)) cfg (some Y)
        = some (mdWrap (p ++ st) ++ Y ++ mdWrap (p ++ en))
    ∧ process_endpoint_text (mdWrap (p ++ st) ++ Y ++ mdWrap (p ++ en)) cfg none = some Y := by
  have hclean := occPositions_unique_clean (mdWrap (p ++ st)) X (mdWrap (p ++ en)) hX huniq
  refine ⟨?_, ?_, ?_⟩
  · simp only [process_endpoint_text, hcfg, hst, hen, search_startend_shape p st en X hdis]
  · simp only [process_endpoint_text, hcfg, hst, hen, search_startend_shape p st en X hdis]
    rw [pyReplace_splice_one X Y (mdWrap (p ++ st)) (mdWrap (p ++ en)) hX hclean.1 hclean.2]
  · simp only [process_endpoint_text, hcfg, hst, hen, search_startend_shape p st en Y hdis]

/-- C3, counterexample to the original claim: `X = "#"` and `Y = "Z"`
contain neither marker literal, and `"#"` is correctly extracted from the
delimited content; but replacement (Python `str.replace` replaces every
occurrence, and `"#"` also occurs inside both markers) destroys the
markers, so re-extraction returns the no-match `False` instead of `"Z"`. -/
theorem c3_counterexample :
    process_endpoint_text (sMp ++ ("#".data) ++ eMp) cfgP none = some ("#".data)
    ∧ (process_endpoint_text (sMp ++ ("#".data) ++ eMp) cfgP (some ("Z".data))).bind
        (fun r => process_endpoint_text r cfgP none) = none := by decide

theorem c3_witness :
    process_endpoint_text (sMp ++ ("A".data) ++ eMp) cfgP none = some ("A".data)
    ∧ process_endpoint_text (sMp ++ ("A".data) ++ eMp) cfgP (some ("B".data))
        = some (sMp ++ ("B".data) ++ eMp)
    ∧ process_endpoint_text (sMp ++ ("B".data) ++ eMp) cfgP none = some ("B".data) :=
  c3_region_roundtrip ("P".data) (" Start".data) (" End".data) ("A".data) ("B".data)
    cfgP rfl rfl rfl (by decide) (by decide) (by decide)

/-- C2 (amended): in replacement mode `process_endpoint_text` substitutes
EVERY literal occurrence of the previously-extracted region in the
original content (Python `str.replace`), not only the first: if the
extracted region `X` occurs exactly twice — as the region and once more
in the surrounding content — both occurrences are replaced by `Y`.
(The original "only the first occurrence, surrounding content untouched"
claim is false, see `c2_counterexample`.) -/
theorem c2_replace_all_occurrences (cfg : EndpointConfig)
    (content X Y pre mid post : List Char)
    (hX : X ≠ [])
    (hcontent : content = pre ++ X ++ (mid ++ X ++ post))
    (hfound : search_startend content cfg.pattern cfg.pattern_start cfg.pattern_end
      = .found X)
    (hocc : occPositions content X = [pre.length, pre.length + X.length + mid.length]) :
    process_endpoint_text content cfg (some Y) = some (pre ++ Y ++ (mid ++ Y ++ post)) := by
  have hXlen : 0 < X.length := List.length_pos.mpr hX
  subst hcontent
  have hmem : ∀ j, j ∈ occPositions (pre ++ X ++ (mid ++ X ++ post)) X ↔
      j = pre.length ∨ j = pre.length + X.length + mid.length := by
    intro j
    rw [hocc]
    simp
  have h1 : ∀ j, j < pre.length → occursAtB (pre ++ X ++ (mid ++ X ++ post)) X j = false := by
    intro j hj
    by_contra hb
    rw [Bool.not_eq_false] at hb
    have hin : j ∈ occPositions (pre ++ X ++ (mid ++ X ++ post)) X := by
      rw [mem_occPositions]
      exact ⟨by simp only [List.length_append]; omega, hb⟩
    rw [hmem] at hin
    omega
  have h2 : ∀ j, j < mid.length → occursAtB (mid ++ X ++ post) X j = false := by
    intro j hj
    by_contra hb
    rw [Bool.not_eq_false] at hb
    have hshift : occursAtB ((pre ++ X) ++ (mid ++ X ++ post)) X ((pre ++ X).length + j)
        = true := by
      rw [occursAtB_append_shift]
      exact hb
    have hin : (pre ++ X).length + j ∈ occPositions (pre ++ X ++ (mid ++ X ++ post)) X := by
      rw [mem_occPositions]
      refine ⟨by simp only [List.length_append]; omega, hshift⟩
    rw [hmem] at hin
    simp only [List.length_append] at hin
    omega
  have h3 : ∀ j, j < post.length → occursAtB post X j = false := by
    intro j hj
    by_contra hb
    rw [Bool.not_eq_false] at hb
    have hs1 : occursAtB ((mid ++ X) ++ post) X ((mid ++ X).length + j) = true := by
      rw [occursAtB_append_shift]
      exact hb
    have hs2 : occursAtB ((pre ++ X) ++ (mid ++ X ++ post)) X
        ((pre ++ X).length + ((mid ++ X).length + j)) = true := by
      rw [occursAtB_append_shift]
      exact hs1
    have hin : (pre ++ X).length + ((mid ++ X).length + j)
        ∈ occPositions (pre ++ X ++ (mid ++ X ++ post)) X := by
      rw [mem_occPositions]
      refine ⟨by simp only [List.length_append]; omega, hs2⟩
    rw [hmem] at hin
    simp only [List.length_append] at hin
    omega
  simp only [process_endpoint_text, hfound]
  rw [pyReplace_splice_two X Y pre mid post hX h1 h2 h3]

/-- C2, counterexample to the original claim: the extracted region is
`"A"`, which also occurs once after the end marker; replacement with
`"B"` rewrites BOTH occurrences (the claimed first-occurrence-only result
is not produced). -/
theorem c2_counterexample :
    process_endpoint_text (sMp ++ ("A".data) ++ eMp ++ ("A".data)) cfgP none
      = some ("A".data)
    ∧ process_endpoint_text (sMp ++ ("A".data) ++ eMp ++ ("A".data)) cfgP (some ("B".data))
      = some (sMp ++ ("B".data) ++ eMp ++ ("B".data))
    ∧ process_endpoint_text (sMp ++ ("A".data) ++ eMp ++ ("A".data)) cfgP (some ("B".data))
      ≠ some (sMp ++ ("B".data) ++ eMp ++ ("A".data)) := by decide

theorem c2_witness :
    process_endpoint_text (sMp ++ ("A".data) ++ (eMp ++ ("A".data) ++ [])) cfgP
      (some ("B".data)) = some (sMp ++ ("B".data) ++ (eMp ++ ("B".data) ++ [])) :=
  c2_replace_all_occurrences cfgP (sMp ++ ("A".data) ++ (eMp ++ ("A".data) ++ []))
    ("A".data) ("B".data) sMp eMp [] (by decide) rfl (by decide) (by decide)

/-- C4 (amended): region matching is disabled exactly when the logical
pattern is the literal `False` or `None`, or is an empty string with both
suffixes empty; and whenever matching is disabled, `process_endpoint_text`
treats the entire content as the region (extraction returns the whole
content, replacement returns the replacement text wholesale).  (The
original claim — a non-empty suffix always enables matching — is false
when the pattern is the literal `False`/`None`, see `c4_counterexample`.) -/
theorem c4_matching_disabled_iff (pattern : PatternVal) (start end_ content : List Char)
    (cfg : EndpointConfig) (hp : cfg.pattern = pattern) (hs : cfg.pattern_start = start)
    (he : cfg.pattern_end = end_) :
    (search_startend content pattern start end_ = .disabled ↔
       pattern = .falseV ∨ pattern = .noneV
       ∨ (pattern = .strV [] ∧ start = [] ∧ end_ = []))
    ∧ (search_startend content pattern start end_ = .disabled →
        process_endpoint_text content cfg none = some content
        ∧ ∀ r, process_endpoint_text content cfg (some r) = some r) := by
  constructor
  · cases pattern with
    | falseV => simp [search_startend]
    | noneV => simp [search_startend]
    | strV p =>
        simp only [search_startend]
        by_cases hc : p = [] ∧ start = [] ∧ end_ = []
        · rw [if_pos hc]
          simp [hc.1, hc.2.1, hc.2.2]
        · rw [if_neg hc]
          constructor
          · intro hd
            exfalso
            cases hm : md_search content (mdWrap (p ++ start)) (mdWrap (p ++ end_)) with
            | none => rw [hm] at hd; exact SearchResult.noConfusion hd
            | some t => rw [hm] at hd; exact SearchResult.noConfusion hd
          · intro hd
            rcases hd with h | h | h
            · exact absurd h (by simp)
            · exact absurd h (by simp)
            · exact absurd ⟨by injection h.1, h.2.1, h.2.2⟩ hc
  · intro hd
    constructor
    · simp [process_endpoint_text, hp, hs, he, hd]
    · intro r
      simp [process_endpoint_text, hp, hs, he, hd]

/-- C4, counterexample to the original claim: with the logical pattern
the literal `False` and the (non-empty) default suffixes, matching is
disabled, although the claim requires matching to be performed whenever a
suffix is non-empty. -/
theorem c4_counterexample :
    search_startend ("x".data) .falseV (" Start".data) (" End".data) = .disabled
    ∧ (" Start".data) ≠ ([] : List Char) := by decide

theorem c4_witness :
    (search_startend ("x".data) (.strV []) ([]) ([]) = .disabled ↔
       (PatternVal.strV []) = .falseV ∨ (PatternVal.strV []) = .noneV
       ∨ ((PatternVal.strV []) = .strV [] ∧ ([] : List Char) = [] ∧ ([] : List Char) = []))
    ∧ (search_startend ("x".data) (.strV []) ([]) ([]) = .disabled →
        process_endpoint_text ("x".data) cfgEmptyPat none = some ("x".data)
        ∧ ∀ r, process_endpoint_text ("x".data) cfgEmptyPat (some r) = some r) :=
  c4_matching_disabled_iff (.strV []) [] [] ("x".data) cfgEmptyPat rfl rfl rfl

/-! ### Sync engine claims -/

/-- C1: for a sync pair whose source reports a revision date `r` against
stored watermark `T`: if `r ≤ T`, `sync_one` performs zero target writes
and leaves the watermark unchanged (skip); if `r > T`, it updates the
watermark to `r` and runs the normal extraction and fan-out pipeline; if
the source reports revision date as unsupported, it always runs the
pipeline (watermark unchanged). -/
theorem c1_staleness_gate (sync_pair : SyncPairData) (source_obj : SourceObj) (T : Int)
    (hen : sync_pair.enabled = true)
    (hsen : (resolved_source_config sync_pair).enabled = true)
    (htg : sync_pair.targets ≠ []) :
    (∀ r, source_obj.revision_date = some r →
       (r ≤ T → sync_one sync_pair source_obj T = .finished (some false) T [])
       ∧ (r > T → sync_one sync_pair source_obj T = pipeline_outcome sync_pair source_obj r))
    ∧ (source_obj.revision_date = none →
        sync_one sync_pair source_obj T = pipeline_outcome sync_pair source_obj T) := by
  have hcond : (!(sync_pair.enabled && (resolved_source_config sync_pair).enabled)) = false := by
    rw [hen, hsen]
    rfl
  constructor
  · intro r hr
    constructor
    · intro hle
      simp only [sync_one, hcond, Bool.false_eq_true, if_false, if_neg htg]
      simp only [process_source_endpoint, hr, if_neg (by omega : ¬ r > T)]
    · intro hgt
      simp only [sync_one, hcond, Bool.false_eq_true, if_false, if_neg htg]
      simp only [process_source_endpoint, hr, if_pos hgt]
      cases hpc : process_source_content (resolved_source_config sync_pair)
          source_obj.content with
      | none => simp [pipeline_outcome, hpc]
      | some sc => simp [pipeline_outcome, hpc]
  · intro hr
    simp only [sync_one, hcond, Bool.false_eq_true, if_false, if_neg htg]
    simp only [process_source_endpoint, hr]
    cases hpc : process_source_content (resolved_source_config sync_pair)
        source_obj.content with
    | none => simp [pipeline_outcome, hpc]
    | some sc => simp [pipeline_outcome, hpc]

theorem c1_witness :
    sync_one pairW objW 5 = .finished (some false) 5 []
    ∧ sync_one pairW objW 4 = pipeline_outcome pairW objW 5 :=
  ⟨((c1_staleness_gate pairW objW 5 rfl rfl (by decide)).1 5 rfl).1 (by decide),
   ((c1_staleness_gate pairW objW 4 rfl rfl (by decide)).1 5 rfl).2 (by decide)⟩

/-- C7: `sync_one` raises the `ConfigError` exactly when the pair is
enabled, its resolved source config is enabled, and the pair declares
zero targets; when the pair or its source is disabled it returns the
no-op `None` without touching anything (so the disabled check precedes
the zero-targets check: a disabled pair with zero targets does not
raise). -/
theorem c7_zero_targets_error (sync_pair : SyncPairData) (source_obj : SourceObj) (T : Int) :
    (sync_one sync_pair source_obj T = .raisedConfigError ↔
       (sync_pair.enabled && (resolved_source_config sync_pair).enabled) = true
       ∧ sync_pair.targets = [])
    ∧ ((sync_pair.enabled && (resolved_source_config sync_pair).enabled) = false →
        sync_one sync_pair source_obj T = .finished none T []) := by
  cases hb : (sync_pair.enabled && (resolved_source_config sync_pair).enabled) with
  | false =>
      simp only [sync_one, hb]
      constructor
      · simp
      · intro _
        rfl
  | true =>
      simp only [sync_one, hb]
      constructor
      · by_cases ht : sync_pair.targets = []
        · simp [ht]
        · simp only [Bool.not_true, Bool.false_eq_true, if_false, if_neg ht]
          constructor
          · intro h
            exfalso
            cases hps : process_source_endpoint (resolved_source_config sync_pair)
                source_obj T with
            | mk a ts =>
                cases a with
                | none => rw [hps] at h; exact SyncOutcome.noConfusion h
                | some sc => rw [hps] at h; exact SyncOutcome.noConfusion h
          · rintro ⟨-, h2⟩
            exact absurd h2 ht
      · intro h
        simp at h

theorem c7_witness :
    sync_one pairDisabledW objW 0 = .finished none 0 []
    ∧ sync_one pairNoTargetsW objW 0 = .raisedConfigError :=
  ⟨(c7_zero_targets_error pairDisabledW objW 0).2 rfl,
   (c7_zero_targets_error pairNoTargetsW objW 0).1.mpr ⟨rfl, rfl⟩⟩

/-- C9: when the source endpoint's content is structured menu data,
`process_source_endpoint` returns it entirely unchanged — regardless of
the configured region pattern or `replace_patterns` — while the staleness
gate and the watermark update still apply first. -/
theorem c9_menu_source_passthrough (source_config : EndpointConfig) (source_obj : SourceObj)
    (T : Int) (m : MenuData) (hm : source_obj.content = .menu m) :
    (source_obj.revision_date = none →
       process_source_endpoint source_config source_obj T = (some (.menu m), T))
    ∧ (∀ r, source_obj.revision_date = some r →
        (r > T → process_source_endpoint source_config source_obj T = (some (.menu m), r))
        ∧ (r ≤ T → process_source_endpoint source_config source_obj T = (none, T))) := by
  constructor
  · intro hr
    simp only [process_source_endpoint, hr, hm, process_source_content]
  · intro r hr
    constructor
    · intro hgt
      simp only [process_source_endpoint, hr, hm, if_pos hgt, process_source_content]
    · intro hle
      simp only [process_source_endpoint, hr, hm, if_neg (by omega : ¬ r > T)]

theorem c9_witness :
    process_source_endpoint cfgP objMenuW 3
      = (some (.menu [{ text := ("T".data), url := some ("u".data), children := none }]), 5) :=
  ((c9_menu_source_passthrough cfgP objMenuW 3
      [{ text := ("T".data), url := some ("u".data), children := none }] rfl).2 5 rfl).1
    (by decide)

/-! ### Dynamic-state and lifecycle claims -/

theorem watermark_step (cfg : EndpointConfig) (obj : SourceObj) (T : Int) :
    (process_source_endpoint cfg obj T).2 = T
    ∨ ((process_source_endpoint cfg obj T).2 > T
       ∧ obj.revision_date = some (process_source_endpoint cfg obj T).2) := by
  cases hr : obj.revision_date with
  | none => left; simp [process_source_endpoint, hr]
  | some r =>
      by_cases hgt : r > T
      · right
        simp [process_source_endpoint, hr, hgt]
      · left
        simp [process_source_endpoint, hr, hgt]

/-- C5: the dynamic-state invariants.  (1) `process_source_endpoint`
leaves the watermark unchanged or moves it strictly up, and only ever to
the reported revision value; (2) the watermark `sync_one` returns is
likewise never below the stored one (and `sync_one` never touches
`thread_number`, which does not occur in its state); (3)
`create_new_thread` increments `thread_number` by exactly one, and its
resulting watermark is the one obtained by first resetting to 0 and then
running the staleness-gate update — hence 0 or a strictly positive
reported revision. -/
theorem c5_dynamic_state_invariants :
    (∀ (cfg : EndpointConfig) (obj : SourceObj) (T : Int),
       (process_source_endpoint cfg obj T).2 = T
       ∨ ((process_source_endpoint cfg obj T).2 > T
          ∧ obj.revision_date = some (process_source_endpoint cfg obj T).2))
    ∧ (∀ (sync_pair : SyncPairData) (obj : SourceObj) (T : Int) (res : Option Bool)
         (ts : Int) (ws : List Content),
        sync_one sync_pair obj T = .finished res ts ws → ts = T ∨ ts > T)
    ∧ (∀ (cfg : EndpointConfig) (obj : SourceObj) (nid : List Char) (dyn : DynamicRecord),
        (create_new_thread_dyn cfg obj nid dyn).thread_number = dyn.thread_number + 1
        ∧ (create_new_thread_dyn cfg obj nid dyn).source_timestamp
            = (process_source_endpoint cfg obj 0).2
        ∧ ((create_new_thread_dyn cfg obj nid dyn).source_timestamp = 0
           ∨ ((create_new_thread_dyn cfg obj nid dyn).source_timestamp > 0
              ∧ obj.revision_date
                  = some (create_new_thread_dyn cfg obj nid dyn).source_timestamp))) := by
  refine ⟨watermark_step, ?_, ?_⟩
  · intro sync_pair obj T res ts ws h
    cases hb : (sync_pair.enabled && (resolved_source_config sync_pair).enabled) with
    | false =>
        simp only [sync_one, hb, Bool.not_false, if_pos rfl] at h
        left
        exact (SyncOutcome.finished.injEq _ _ _ _ _ _ ▸ h).2.1.symm
    | true =>
        simp only [sync_one, hb, Bool.not_true, Bool.false_eq_true, if_false] at h
        by_cases ht : sync_pair.targets = []
        · rw [if_pos ht] at h
          exact absurd h (by simp)
        · rw [if_neg ht] at h
          rcases hps : process_source_endpoint (resolved_source_config sync_pair) obj T
            with ⟨a, ts'⟩
          rw [hps] at h
          have hts : ts = ts' := by
            cases a with
            | none =>
                simp only at h
                exact ((SyncOutcome.finished.injEq _ _ _ _ _ _).mp h.symm).2.1
            | some sc =>
                simp only at h
                exact ((SyncOutcome.finished.injEq _ _ _ _ _ _).mp h.symm).2.1
          subst hts
          have hw := watermark_step (resolved_source_config sync_pair) obj T
          rw [hps] at hw
          rcases hw with hw | hw
          · left; exact hw
          · right; exact hw.1
  · intro cfg obj nid dyn
    refine ⟨rfl, rfl, ?_⟩
    have hst : (create_new_thread_dyn cfg obj nid dyn).source_timestamp
        = (process_source_endpoint cfg obj 0).2 := rfl
    rw [hst]
    have hw := watermark_step cfg obj 0
    rcases hw with hw | hw
    · left; exact hw
    · right; exact hw

theorem c5_witness :
    ((5 : Int) = 5 ∨ (5 : Int) > 5)
    ∧ (create_new_thread_dyn cfgP objW ("n".data) dynW).thread_number
        = dynW.thread_number + 1 :=
  ⟨c5_dynamic_state_invariants.2.1 pairW objW 5 (some false) 5 [] (by decide),
   (c5_dynamic_state_invariants.2.2 cfgP objW ("n".data) dynW).1⟩

/-- C8: `process_raw_interval` parses the interval into (unit, N) with
the unit taken from the last whitespace token, trailing `s` characters
and a trailing `ly` stripped; for a single-token interval N is `None` —
except the unit `week`, whose multiplier defaults to 1; consequently
`manage_thread` applies the elapsed-duration rule with N = 1 to a bare
`"week"` interval (rather than the calendar-field-difference rule, which
would fail since datetimes have no `week` attribute). -/
theorem c8_interval_parsing :
    (∀ raw u, pySplitWs raw = [u] →
       process_raw_interval raw
         = some (normalize_unit u,
             if normalize_unit u = ("week".data) then some 1 else none))
    ∧ (∀ raw t0 t1 rest u k, pySplitWs raw = t0 :: t1 :: rest →
        (t0 :: t1 :: rest).getLast? = some u → pyInt t0 = some k →
        process_raw_interval raw
          = some (normalize_unit u,
              if normalize_unit u = ("week".data) ∧ k = 0 then some 1 else some k))
    ∧ (∀ (lp now : DateTime) (tid : List Char), tid ≠ [] →
        manage_thread_decision true ("week".data) tid lp now
          = some (some (decide (toSecs now > toSecs (addSeconds lp 604800))))) := by
  refine ⟨?_, ?_, ?_⟩
  · intro raw u h
    by_cases hw : normalize_unit u = ("week".data)
    · simp [process_raw_interval, h, hw]
    · simp [process_raw_interval, h, hw]
  · intro raw t0 t1 rest u k hsplit hlast hint
    by_cases hw : normalize_unit u = ("week".data) ∧ k = 0
    · simp [process_raw_interval, hsplit, hlast, hint, hw]
    · simp only [process_raw_interval, hsplit, hlast, hint]
      have hlen : ¬ ((t0 :: t1 :: rest).length = 1) := by
        simp only [List.length_cons]
        omega
      rw [if_neg hlen]
      simp [hw]
  · intro lp now tid htid
    have hpr : process_raw_interval ("week".data) = some (("week".data), some 1) := by decide
    have hne : ("week".data) ≠ ([] : List Char) := by decide
    simp only [manage_thread_decision]
    rw [if_neg (by decide : ¬ ((!true) = true)), if_neg hne, hpr]
    dsimp only
    rw [if_neg htid]
    have ha : addInterval lp ("week".data) 1 = some (addSeconds lp 604800) := by
      unfold addInterval
      rw [if_neg (by decide), if_neg (by decide), if_pos rfl]
      norm_num
    rw [ha]

theorem c8_witness :
    process_raw_interval ("weekly".data)
      = some (normalize_unit ("weekly".data),
          if normalize_unit ("weekly".data) = ("week".data) then some 1 else none)
    ∧ manage_thread_decision true ("week".data) ("abc".data) dtW dtW2
        = some (some (decide (toSecs dtW2 > toSecs (addSeconds dtW 604800)))) :=
  ⟨c8_interval_parsing.1 ("weekly".data) ("weekly".data) (by decide),
   c8_interval_parsing.2.2 dtW dtW2 ("abc".data) (by decide)⟩

/-- C10: `process_raw_interval` succeeds exactly on interval strings with
at least one whitespace-separated token whose first token, when more
than one token is present, is a decimal integer literal; an empty or
all-whitespace interval string makes it raise (`none`, the `IndexError`),
and such a string reaches it from `manage_thread` because any non-empty
string passes the enclosing truthiness check. -/
theorem c10_interval_totality :
    (∀ raw, pySplitWs raw = [] → process_raw_interval raw = none)
    ∧ (∀ raw, raw ≠ [] → pySplitWs raw = [] →
        ∀ (tid : List Char) (lp now : DateTime),
          manage_thread_decision true raw tid lp now = none)
    ∧ (∀ raw, (process_raw_interval raw).isSome = true ↔
        (pySplitWs raw ≠ [] ∧
          ((pySplitWs raw).length = 1
           ∨ (pyInt ((pySplitWs raw).headD [])).isSome = true))) := by
  refine ⟨?_, ?_, ?_⟩
  · intro raw h
    simp [process_raw_interval, h]
  · intro raw hne hsplit tid lp now
    have hp : process_raw_interval raw = none := by simp [process_raw_interval, hsplit]
    simp only [manage_thread_decision]
    rw [if_neg (by decide : ¬ ((!true) = true)), if_neg hne, hp]
  · intro raw
    cases hs : pySplitWs raw with
    | nil => simp [process_raw_interval, hs]
    | cons t0 ts =>
        cases ts with
        | nil => simp [process_raw_interval, hs]
        | cons t1 rest =>
            have husome : (t0 :: t1 :: rest).getLast?.isSome = true := by
              rw [List.getLast?_isSome]
              simp
            obtain ⟨u, hu⟩ := Option.isSome_iff_exists.mp husome
            cases hpi : pyInt t0 with
            | none =>
                simp only [process_raw_interval, hs, hu, hpi]
                have hlen : ¬ ((t0 :: t1 :: rest).length = 1) := by
                  simp only [List.length_cons]
                  omega
                rw [if_neg hlen]
                simp [hlen, hpi]
            | some k =>
                by_cases hw : normalize_unit u = ("week".data) ∧ (some k = none ∨ some k = some 0)
                · simp only [process_raw_interval, hs, hu, hpi]
                  simp [hw, hpi]
                · simp only [process_raw_interval, hs, hu, hpi]
                  simp only [List.length_cons, Nat.succ_ne_zero]
                  rw [if_neg (by simp)]
                  simp [hw, hpi]

theorem c10_witness :
    process_raw_interval (" ".data) = none
    ∧ manage_thread_decision true (" ".data) ("abc".data) dtW dtW2 = none :=
  ⟨c10_interval_totality.1 (" ".data) (by decide),
   c10_interval_totality.2.1 (" ".data) (by decide) (by decide) ("abc".data) dtW dtW2⟩

/-! ### Config resolver claims -/

theorem dget_dset_self {α : Type} (d : List (List Char × α)) (k : List Char) (v : α) :
    dget (dset d k v) k = some v := by
  induction d with
  | nil => simp [dset, dget]
  | cons p rest ih =>
      obtain ⟨k1, v1⟩ := p
      by_cases hk : k1 = k
      · simp [dset, hk, dget]
      · simp [dset, hk, dget, ih]

theorem dget_dset_ne {α : Type} (d : List (List Char × α)) (k k' : List Char) (v : α)
    (h : k ≠ k') : dget (dset d k v) k' = dget d k' := by
  induction d with
  | nil => simp [dset, dget, h]
  | cons p rest ih =>
      obtain ⟨k1, v1⟩ := p
      by_cases hk : k1 = k
      · subst hk
        simp [dset, dget, h]
      · simp [dset, hk, dget, ih]

theorem dget_append {α : Type} (xs ys : List (List Char × α)) (k : List Char) :
    dget (xs ++ ys) k = (dget xs k).or (dget ys k) := by
  induction xs with
  | nil => simp [dget, Option.or]
  | cons p rest ih =>
      obtain ⟨k1, v1⟩ := p
      by_cases hk : k1 = k
      · simp [dget, hk, Option.or]
      · simp [dget, hk, ih]

theorem dget_map_getD (b a : Record) (k : List Char) :
    dget (a.map (fun q => (q.1, (dget b q.1).getD q.2))) k
      = (dget a k).map (fun v => (dget b k).getD v) := by
  induction a with
  | nil => simp [dget]
  | cons p rest ih =>
      obtain ⟨k1, v1⟩ := p
      by_cases hk : k1 = k
      · subst hk
        simp [dget]
      · simp [dget, hk, ih]

theorem dget_filter {α : Type} (l : List (List Char × α)) (p : (List Char × α) → Bool)
    (k : List Char) (hp : ∀ v, p (k, v) = true) :
    dget (l.filter p) k = dget l k := by
  induction l with
  | nil => simp
  | cons q rest ih =>
      obtain ⟨k1, v1⟩ := q
      by_cases hk : k1 = k
      · subst hk
        simp [List.filter_cons, hp v1, dget, ih]
      · cases hq : p (k1, v1) with
        | false => simp [List.filter_cons, hq, dget, hk, ih]
        | true => simp [List.filter_cons, hq, dget, hk, ih]

theorem dget_dmerge (a b : Record) (k : List Char) :
    dget (dmerge a b) k = (dget b k).or (dget a k) := by
  unfold dmerge
  rw [dget_append, dget_map_getD]
  cases ha : dget a k with
  | none =>
      rw [dget_filter b _ k (fun v => by simp [ha])]
      cases hb : dget b k <;> simp [Option.or]
  | some v0 =>
      cases hb : dget b k <;> simp [Option.or]

theorem renderGo_nil (static_config : List (List Char × CVal)) (dc : DynDoc) :
    renderGo static_config [] dc = some dc := rfl

theorem renderGo_cons_some (static_config : List (List Char × CVal)) (key : List Char)
    (path : List (List Char)) (defs : Record)
    (rest : List (List Char × (List (List Char) × Record))) (dc : DynDoc)
    (items : List (List Char × CVal)) (sec : DynSection)
    (hp : pathGet static_config path = some items)
    (hf : fillSection defs items ((dget dc key).getD []) = some sec) :
    renderGo static_config ((key, (path, defs)) :: rest) dc
      = renderGo static_config rest (dset dc key sec) := by
  show (match pathGet static_config path with
        | none => none
        | some items0 =>
            match fillSection defs items0 ((dget dc key).getD []) with
            | none => none
            | some sec0 => renderGo static_config rest (dset dc key sec0)) = _
  rw [hp]
  show (match fillSection defs items ((dget dc key).getD []) with
        | none => none
        | some sec0 => renderGo static_config rest (dset dc key sec0)) = _
  rw [hf]

theorem renderGo_cons_path_none (static_config : List (List Char × CVal)) (key : List Char)
    (path : List (List Char)) (defs : Record)
    (rest : List (List Char × (List (List Char) × Record))) (dc : DynDoc)
    (hp : pathGet static_config path = none) :
    renderGo static_config ((key, (path, defs)) :: rest) dc = none := by
  show (match pathGet static_config path with
        | none => none
        | some items0 =>
            match fillSection defs items0 ((dget dc key).getD []) with
            | none => none
            | some sec0 => renderGo static_config rest (dset dc key sec0)) = _
  rw [hp]

theorem renderGo_cons_fill_none (static_config : List (List Char × CVal)) (key : List Char)
    (path : List (List Char)) (defs : Record)
    (rest : List (List Char × (List (List Char) × Record))) (dc : DynDoc)
    (items : List (List Char × CVal))
    (hp : pathGet static_config path = some items)
    (hf : fillSection defs items ((dget dc key).getD []) = none) :
    renderGo static_config ((key, (path, defs)) :: rest) dc = none := by
  show (match pathGet static_config path with
        | none => none
        | some items0 =>
            match fillSection defs items0 ((dget dc key).getD []) with
            | none => none
            | some sec0 => renderGo static_config rest (dset dc key sec0)) = _
  rw [hp]
  show (match fillSection defs items ((dget dc key).getD []) with
        | none => none
        | some sec0 => renderGo static_config rest (dset dc key sec0)) = _
  rw [hf]

theorem fillSection_not_mem (defaults : Record) :
    ∀ (items : List (List Char × CVal)) (sec sec' : DynSection) (id : List Char),
      (∀ item, (id, item) ∉ items) → fillSection defaults items sec = some sec' →
      dget sec' id = dget sec id := by
  intro items
  induction items with
  | nil =>
      intro sec sec' id _ h
      simp only [fillSection, Option.some.injEq] at h
      rw [h]
  | cons p rest ih =>
      obtain ⟨id0, item0⟩ := p
      intro sec sec' id hnot h
      simp only [fillSection] at h
      cases hin : getInitial item0 with
      | none =>
          rw [hin] at h
          exact absurd h (by simp)
      | some ini =>
          rw [hin] at h
          have hne : id0 ≠ id := by
            intro he
            exact hnot item0 (by rw [← he]; exact List.mem_cons_self _ _)
          have hrest := ih _ sec' id (fun item hm => hnot item (List.mem_cons_of_mem _ hm)) h
          rw [hrest, dget_dset_ne _ _ _ _ hne]

theorem fillSection_mem (defaults : Record) :
    ∀ (items : List (List Char × CVal)) (sec sec' : DynSection) (id : List Char)
      (item : CVal) (ini : Record),
      (items.map Prod.fst).Nodup → (id, item) ∈ items → getInitial item = some ini →
      fillSection defaults items sec = some sec' →
      dget sec' id = some (dmerge (dmerge defaults ini) ((dget sec id).getD [])) := by
  intro items
  induction items with
  | nil =>
      intro sec sec' id item ini _ hmem _ _
      simp at hmem
  | cons p rest ih =>
      obtain ⟨id0, item0⟩ := p
      intro sec sec' id item ini hnodup hmem hini h
      simp only [fillSection] at h
      simp only [List.map_cons, List.nodup_cons] at hnodup
      rcases List.mem_cons.mp hmem with heq | hmem'
      · have hid : id = id0 := congrArg Prod.fst heq
        have hitem : item = item0 := congrArg Prod.snd heq
        subst hid
        subst hitem
        rw [hini] at h
        have hnotin : ∀ it, (id, it) ∉ rest := by
          intro it hin
          exact hnodup.1 (List.mem_map.mpr ⟨(id, it), hin, rfl⟩)
        rw [fillSection_not_mem defaults rest _ sec' id hnotin h, dget_dset_self]
      · have hne : id0 ≠ id := by
          intro he
          subst he
          exact hnodup.1 (List.mem_map.mpr ⟨(id0, item), hmem', rfl⟩)
        cases hin0 : getInitial item0 with
        | none =>
            rw [hin0] at h
            exact absurd h (by simp)
        | some ini0 =>
            rw [hin0] at h
            have hrest := ih _ sec' id item ini hnodup.2 hmem' hini h
            rw [hrest, dget_dset_ne _ _ _ _ hne]

/-- C6: for every static config and prior dynamic config on which
`render_dynamic_config` succeeds, and each `DYNAMIC_CONFIGS` section:
every item id of the static config section gets a dynamic record that is
the overlay of the schema defaults, then the item's `initial` block, then
any pre-existing dynamic record (later layers winning on key collision —
`dget` of `dmerge` prefers the second argument); and every id present in
the prior dynamic section but absent from the static section keeps its
record unchanged. -/
theorem c6_render_dynamic_config (static_config : List (List Char × CVal))
    (dyn out : DynDoc) (hout : render_dynamic_config static_config dyn = some out) :
    (∀ key path defs, (key, (path, defs)) ∈ DYNAMIC_CONFIGS →
      ∀ items, pathGet static_config path = some items →
        (items.map Prod.fst).Nodup →
        (∀ id item ini, (id, item) ∈ items → getInitial item = some ini →
          dget ((dget out key).getD []) id
            = some (dmerge (dmerge defs ini)
                ((dget ((dget dyn key).getD []) id).getD [])))
        ∧ (∀ id, (∀ item, (id, item) ∉ items) →
            dget ((dget out key).getD []) id = dget ((dget dyn key).getD []) id))
    ∧ (∀ (a b : Record) (k : List Char), dget (dmerge a b) k = (dget b k).or (dget a k)) := by
  refine ⟨?_, fun a b k => dget_dmerge a b k⟩
  unfold render_dynamic_config DYNAMIC_CONFIGS at hout
  cases hp1 : pathGet static_config megathreadPath with
  | none =>
      rw [renderGo_cons_path_none _ _ _ _ _ _ hp1] at hout
      exact absurd hout (by simp)
  | some items1 =>
  cases hf1 : fillSection megathreadDynDefaults items1
      ((dget dyn ("megathread".data)).getD []) with
  | none =>
      rw [renderGo_cons_fill_none _ _ _ _ _ _ _ hp1 hf1] at hout
      exact absurd hout (by simp)
  | some sec1 =>
  rw [renderGo_cons_some _ _ _ _ _ _ _ _ hp1 hf1] at hout
  cases hp2 : pathGet static_config syncPath with
  | none =>
      rw [renderGo_cons_path_none _ _ _ _ _ _ hp2] at hout
      exact absurd hout (by simp)
  | some items2 =>
  cases hf2 : fillSection syncDynDefaults items2
      ((dget (dset dyn ("megathread".data) sec1) ("sync".data)).getD []) with
  | none =>
      rw [renderGo_cons_fill_none _ _ _ _ _ _ _ hp2 hf2] at hout
      exact absurd hout (by simp)
  | some sec2 =>
  rw [renderGo_cons_some _ _ _ _ _ _ _ _ hp2 hf2, renderGo_nil] at hout
  injection hout with hout2
  intro key path defs hkey items hpath hnodup
  have hMS : ("megathread".data) ≠ ("sync".data) := by decide
  have hsync : dget (dset dyn ("megathread".data) sec1) ("sync".data)
      = dget dyn ("sync".data) := dget_dset_ne _ _ _ _ hMS
  simp only [DYNAMIC_CONFIGS, List.mem_cons, List.not_mem_nil, or_false] at hkey
  rcases hkey with hkey | hkey
  · have hk : key = ("megathread".data) := congrArg Prod.fst hkey
    have hpd : path = megathreadPath := congrArg (Prod.fst ∘ Prod.snd) hkey
    have hdefs : defs = megathreadDynDefaults := congrArg (Prod.snd ∘ Prod.snd) hkey
    subst hk
    subst hpd
    subst hdefs
    rw [hp1] at hpath
    have hitems : items = items1 := by
      simpa using hpath.symm
    subst hitems
    have hgout : dget out ("megathread".data) = some sec1 := by
      rw [← hout2, dget_dset_ne _ _ _ _ (fun he => hMS he.symm), dget_dset_self]
    constructor
    · intro id item ini hmem hini
      rw [hgout]
      simp only [Option.getD_some]
      exact fillSection_mem megathreadDynDefaults _ _ sec1 id item ini
        hnodup hmem hini hf1
    · intro id hnot
      rw [hgout]
      simp only [Option.getD_some]
      exact fillSection_not_mem megathreadDynDefaults _ _ sec1 id hnot hf1
  · have hk : key = ("sync".data) := congrArg Prod.fst hkey
    have hpd : path = syncPath := congrArg (Prod.fst ∘ Prod.snd) hkey
    have hdefs : defs = syncDynDefaults := congrArg (Prod.snd ∘ Prod.snd) hkey
    subst hk
    subst hpd
    subst hdefs
    rw [hp2] at hpath
    have hitems : items = items2 := by
      simpa using hpath.symm
    subst hitems
    have hgout : dget out ("sync".data) = some sec2 := by
      rw [← hout2, dget_dset_self]
    constructor
    · intro id item ini hmem hini
      rw [hgout]
      simp only [Option.getD_some]
      have hfill := fillSection_mem syncDynDefaults _ _ sec2 id item ini
        hnodup hmem hini hf2
      rw [hsync] at hfill
      exact hfill
    · intro id hnot
      rw [hgout]
      simp only [Option.getD_some]
      have hfill := fillSection_not_mem syncDynDefaults _ _ sec2 id hnot hf2
      rw [hsync] at hfill
      exact hfill

theorem c6_witness :
    dget ((dget outW ("megathread".data)).getD []) ("a".data)
      = some (dmerge (dmerge megathreadDynDefaults
            [(("thread_number".data), CVal.vInt 5)])
          ((dget ((dget dynDocW ("megathread".data)).getD []) ("a".data)).getD []))
    ∧ dget ((dget outW ("megathread".data)).getD []) ("gone".data)
      = dget ((dget dynDocW ("megathread".data)).getD []) ("gone".data) := by
  have h := (c6_render_dynamic_config staticW dynDocW outW rfl).1 ("megathread".data)
    megathreadPath megathreadDynDefaults (List.mem_cons_self _ _)
    [(("a".data), itemAW)] rfl (by decide)
  refine ⟨h.1 ("a".data) itemAW _ (List.mem_cons_self _ _) rfl, ?_⟩
  refine h.2 ("gone".data) ?_
  intro item hm
  have heq := List.mem_singleton.mp hm
  have hfst : ("gone".data) = ("a".data) := congrArg Prod.fst heq
  exact absurd hfst (by decide)
